import Mathlib

/-!
Verification of the Polo hologram projector (src/Polo.py) against its
natural-language specification.

The Python source is shallowly embedded:

* pure numeric code becomes functions over `ℚ`, `ℤ` and `ℕ`;
* images become pixel grids indexed by `Fin`;
* the stateful media session becomes explicit state passing, with each
  Python statement mutating a field of an explicit record and fallible
  statements returning an error component alongside the state;
* the two playback threads and the main thread running `stop()` become a
  small labelled transition system stepped by an explicit scheduler trace;
* Python `str` values for file paths are modelled as `List Char`
  (CPython strings are sequences of code points, and core `String`
  functions do not reduce in the kernel).
-/

/- ### Numeric primitives -/

/-- Python `int(q)` on a real quantity: truncation toward zero, i.e. the floor
for nonnegative arguments and the ceiling for negative ones. -/
def pyInt (q : ℚ) : ℤ := if 0 ≤ q then ⌊q⌋ else ⌈q⌉

/- ### `Polo.hologrify` sizing metrics (src/Polo.py:356-384)

`hologrify` fixes `center_length_mm = 100` (line 358), obtains
`screen_height_mm` and `dpmm` from the widget or from the manual diagonal
(lines 368-376), and then computes (lines 380-384):

    media_length_mm  = abs(screen_height_mm - center_length_mm) / 2
    media_length_px  = int(media_length_mm * dpmm)
    center_length_px = int(center_length_mm * dpmm)

The claims quantify over `screen_height_mm` and `dpmm`, so the embedding
takes them as parameters. -/

/-- src/Polo.py:380 — `media_length_mm = abs(screen_height_mm - center_length_mm) / 2`. -/
def media_length_mm (screen_height_mm : ℚ) : ℚ := |screen_height_mm - 100| / 2

/-- src/Polo.py:383 — `media_length_px = int(media_length_mm * dpmm)`. -/
def media_length_px (screen_height_mm dpmm : ℚ) : ℤ :=
  pyInt (media_length_mm screen_height_mm * dpmm)

/-- src/Polo.py:384 — `center_length_px = int(center_length_mm * dpmm)`. -/
def center_length_px (dpmm : ℚ) : ℤ := pyInt (100 * dpmm)

/-- Spec side of claim C6 (spec §4.1 step 2), for comparison with the source:
`centerLengthPx = round(100 * dpmm)`, rounding to the nearest integer. -/
def spec_center_length_px (dpmm : ℚ) : ℤ := round (100 * dpmm)

/-- Spec side of claim C2 (spec §4.1 step 3), for comparison with the source:
quadrant bounding-square side in mm is `(screenHeightMM - 100) / 2`, with no
absolute value. -/
def spec_media_length_mm (screen_height_mm : ℚ) : ℚ := (screen_height_mm - 100) / 2

/-- Claim C2, counterexample: at screen height 101 mm (strictly above 100) and
dpmm = 1 (strictly positive), the source computes `media_length_px = int(0.5) = 0`,
which is not strictly positive — refuting "mediaLengthPx is strictly positive
whenever screenHeightMM > 100". -/
theorem c2_counterexample :
    (100 : ℚ) < 101 ∧ (0 : ℚ) < 1 ∧ media_length_px 101 1 = 0 := by
  refine ⟨by norm_num, by norm_num, ?_⟩
  have h1 : media_length_mm 101 * 1 = 1 / 2 := by
    rw [media_length_mm]
    norm_num
  rw [media_length_px, h1, pyInt, if_pos (by norm_num)]
  norm_num

/-- Claim C2 as amended: for positive `dpmm` the source computes
`media_length_px = ⌊|screenHeightMM - 100| * dpmm / 2⌋`; this is always
nonnegative, is strictly positive exactly when `|screenHeightMM - 100| * dpmm ≥ 2`
(so heights slightly above 100 mm can still give 0 after `int` truncation), and a
height below 100 mm is neither rejected nor clamped: the absolute value makes it
produce the same layout side as the height mirrored above 100 mm. -/
theorem c2_amended (h dpmm : ℚ) (hd : 0 < dpmm) :
    media_length_px h dpmm = ⌊|h - 100| * dpmm / 2⌋
    ∧ 0 ≤ media_length_px h dpmm
    ∧ (0 < media_length_px h dpmm ↔ 2 ≤ |h - 100| * dpmm)
    ∧ media_length_px (200 - h) dpmm = media_length_px h dpmm := by
  have hx : media_length_mm h * dpmm = |h - 100| * dpmm / 2 := by
    rw [media_length_mm]; ring
  have hnn : (0 : ℚ) ≤ |h - 100| * dpmm / 2 := by positivity
  have h1 : media_length_px h dpmm = ⌊|h - 100| * dpmm / 2⌋ := by
    rw [media_length_px, hx, pyInt, if_pos hnn]
  refine ⟨h1, ?_, ?_, ?_⟩
  · rw [h1]
    exact Int.floor_nonneg.mpr hnn
  · rw [h1]
    constructor
    · intro hpos
      have h2 : (1 : ℤ) ≤ ⌊|h - 100| * dpmm / 2⌋ := hpos
      have h3 : (1 : ℚ) ≤ |h - 100| * dpmm / 2 := by exact_mod_cast Int.le_floor.mp h2
      linarith
    · intro h2
      have h3 : (1 : ℚ) ≤ |h - 100| * dpmm / 2 := by linarith
      have h4 : (1 : ℤ) ≤ ⌊|h - 100| * dpmm / 2⌋ := Int.le_floor.mpr (by exact_mod_cast h3)
      omega
  · have habs : |(200 : ℚ) - h - 100| = |h - 100| := by
      have : (200 : ℚ) - h - 100 = -(h - 100) := by ring
      rw [this, abs_neg]
    rw [media_length_px, media_length_px, media_length_mm, media_length_mm, habs]

/-- Witness for `c2_amended` at screen height 110 mm, dpmm = 4. -/
theorem c2_amended_witness :
    media_length_px 110 4 = ⌊|(110 : ℚ) - 100| * 4 / 2⌋
    ∧ 0 ≤ media_length_px 110 4
    ∧ (0 < media_length_px 110 4 ↔ 2 ≤ |(110 : ℚ) - 100| * 4)
    ∧ media_length_px (200 - 110) 4 = media_length_px 110 4 :=
  c2_amended 110 4 (by norm_num)

/-- Claim C6, counterexample: at dpmm = 3.007 the source computes
`center_length_px = int(300.7) = 300`, while the spec's `round(100 * dpmm)`
is 301 — the code truncates rather than rounding to the nearest integer. -/
theorem c6_counterexample :
    center_length_px (3007 / 1000) = 300
    ∧ spec_center_length_px (3007 / 1000) = 301
    ∧ center_length_px (3007 / 1000) ≠ spec_center_length_px (3007 / 1000) := by
  have h1 : center_length_px (3007 / 1000) = 300 := by
    have hx : (100 : ℚ) * (3007 / 1000) = 3007 / 10 := by norm_num
    rw [center_length_px, hx, pyInt, if_pos (by norm_num)]
    norm_num
  have h2 : spec_center_length_px (3007 / 1000) = 301 := by
    have hx : (100 : ℚ) * (3007 / 1000) = 3007 / 10 := by norm_num
    rw [spec_center_length_px, hx, round_eq]
    norm_num
  exact ⟨h1, h2, by rw [h1, h2]; decide⟩

/-- Claim C6 as amended: for nonnegative `dpmm` the source computes
`center_length_px = ⌊100 * dpmm⌋` (Python `int` truncation), which agrees with
the spec's round-to-nearest exactly when the fractional part of `100 * dpmm`
is below one half. -/
theorem c6_amended (dpmm : ℚ) (hd : 0 ≤ dpmm) :
    center_length_px dpmm = ⌊100 * dpmm⌋
    ∧ (Int.fract (100 * dpmm) < 1 / 2 →
        center_length_px dpmm = spec_center_length_px dpmm) := by
  have h1 : center_length_px dpmm = ⌊100 * dpmm⌋ := by
    rw [center_length_px, pyInt, if_pos (by positivity)]
  refine ⟨h1, fun hf => ?_⟩
  rw [h1, spec_center_length_px, round_eq]
  have hsplit : 100 * dpmm + 1 / 2
      = (⌊100 * dpmm⌋ : ℚ) + (Int.fract (100 * dpmm) + 1 / 2) := by
    have := Int.floor_add_fract (100 * dpmm)
    linarith
  rw [hsplit, Int.floor_int_add]
  have hz : ⌊Int.fract (100 * dpmm) + 1 / 2⌋ = 0 := by
    rw [Int.floor_eq_zero_iff, Set.mem_Ico]
    constructor
    · have := Int.fract_nonneg (100 * dpmm)
      linarith
    · linarith [Int.fract_nonneg (100 * dpmm)]
  omega

/-- Witness for `c6_amended` at dpmm = 3. -/
theorem c6_amended_witness :
    center_length_px 3 = ⌊(100 : ℚ) * 3⌋
    ∧ (Int.fract ((100 : ℚ) * 3) < 1 / 2 →
        center_length_px 3 = spec_center_length_px 3) :=
  c6_amended 3 (by norm_num)

/- ### Frames and the four mirrored quadrants (src/Polo.py:387-402)

`hologrify` scales a copy of the source to the `top` quadrant and derives the
other three by PIL whole-image operations.  A frame is modelled extensionally
as its RGBA pixel grid, indexed by row then column; `ImageOps.flip` reverses
rows (top-to-bottom flip), `ImageOps.mirror` reverses columns (left-to-right
flip), and `rotate(90, expand=True)` rotates counterclockwise, swapping the
dimensions.  The round-trip claims hold for an arbitrary `top`, hence for the
thumbnail of any source frame. -/

/-- An in-memory raster frame of width `w` and height `h`: an RGBA pixel grid
indexed by row then column. -/
@[ext]
structure Img (w h : Nat) where
  pix : Fin h → Fin w → Nat × Nat × Nat × Nat

/-- PIL `ImageOps.flip`: flip vertically (row `r` of the result is row
`h - 1 - r` of the input). -/
def ImageOps.flip {w h : Nat} (img : Img w h) : Img w h :=
  ⟨fun r c => img.pix r.rev c⟩

/-- PIL `ImageOps.mirror`: flip horizontally (column `c` of the result is
column `w - 1 - c` of the input). -/
def ImageOps.mirror {w h : Nat} (img : Img w h) : Img w h :=
  ⟨fun r c => img.pix r c.rev⟩

/-- PIL `img.rotate(90, expand=True)`: rotate 90° counterclockwise; the
rightmost input column becomes the top output row. -/
def Img.rotate90 {w h : Nat} (img : Img w h) : Img h w :=
  ⟨fun r c => img.pix c r.rev⟩

/-- `ImageOps.flip` is an involution. -/
theorem ImageOps.flip_flip {w h : Nat} (img : Img w h) :
    ImageOps.flip (ImageOps.flip img) = img := by
  ext r c
  all_goals simp [ImageOps.flip, Fin.rev_rev]

/-- `ImageOps.mirror` is an involution. -/
theorem ImageOps.mirror_mirror {w h : Nat} (img : Img w h) :
    ImageOps.mirror (ImageOps.mirror img) = img := by
  ext r c
  all_goals simp [ImageOps.mirror, Fin.rev_rev]

/-- src/Polo.py:392 — `bottom = ImageOps.flip(top)`. -/
def quadrant_bottom {w h : Nat} (top : Img w h) : Img w h := ImageOps.flip top

/-- src/Polo.py:396 — `left = ImageOps.flip(top.rotate(90, expand=True))`. -/
def quadrant_left {w h : Nat} (top : Img w h) : Img h w :=
  ImageOps.flip top.rotate90

/-- src/Polo.py:400 — `right = ImageOps.mirror(left)`. -/
def quadrant_right {w h : Nat} (top : Img w h) : Img h w :=
  ImageOps.mirror (quadrant_left top)

/-- Claim C5: the quadrants built by `hologrify` satisfy the defining equations
bottom = verticalFlip(top), left = verticalFlip(rotate90(top)),
right = horizontalMirror(left), and the round-trips
verticalFlip(bottom) = top and horizontalMirror(right) = left hold
pixel-exactly, for every scaled source frame `top`. -/
theorem c5_quadrant_roundtrip {w h : Nat} (top : Img w h) :
    quadrant_bottom top = ImageOps.flip top
    ∧ quadrant_left top = ImageOps.flip top.rotate90
    ∧ quadrant_right top = ImageOps.mirror (quadrant_left top)
    ∧ ImageOps.flip (quadrant_bottom top) = top
    ∧ ImageOps.mirror (quadrant_right top) = quadrant_left top :=
  ⟨rfl, rfl, rfl, ImageOps.flip_flip top, ImageOps.mirror_mirror (quadrant_left top)⟩

/- ### Producer loop of `Polo.play` (src/Polo.py:300-325)

`process_frames` keeps a local counter `i` starting at 0.  Each iteration it
calls `self.media.get_data(i % len(self.media))`; on success it increments
`i`, builds `frame_tuple = [display, None]`, fills the preview slot exactly
when the incremented `i` satisfies `i % fps == 0`, and puts the pair into the
frame buffer; on `RuntimeError` it resets `i = 0` and retries.  The embedding
records, per successful iteration, the index handed to `get_data` and whether
the preview slot was filled.  The decoder is an oracle indexed by the attempt
number, so a given frame index may fail transiently and succeed later, as the
spec describes for unreliable decoder-reported lengths.  `fuel` counts loop
iterations performed while the media is still the active video (the loop
itself only stops when `stop()` swaps the media out). -/

/-- One pair pushed into `frame_buffer` by the producer: the index handed to
`get_data` and whether the preview slot (`frame_tuple[1]`) is non-empty. -/
structure Push where
  frameIdx : Nat
  preview : Bool
deriving DecidableEq, Repr

/-- src/Polo.py:300-325 — the producer loop body, run for `fuel` iterations
with frame counter `i` and attempt number `t`: a successful decode pushes
`⟨i % n, (i+1) % fps == 0⟩` and increments `i`; a failed decode resets `i`
to 0 and pushes nothing. -/
def process_frames (fps n : Nat) (decodeOk : Nat → Bool) :
    Nat → Nat → Nat → List Push
  | 0, _, _ => []
  | fuel + 1, i, t =>
    if decodeOk t then
      ⟨i % n, (i + 1) % fps == 0⟩ :: process_frames fps n decodeOk fuel (i + 1) (t + 1)
    else
      process_frames fps n decodeOk fuel 0 (t + 1)

/-- On an error-free decoder the producer pushes, in order, the frames
`i % n, (i+1) % n, …`, marking the preview slot on every `fps`-th push. -/
theorem process_frames_ok (fps n : Nat) (fuel : Nat) :
    ∀ i t, process_frames fps n (fun _ => true) fuel i t
      = (List.range fuel).map (fun j => ⟨(i + j) % n, (i + j + 1) % fps == 0⟩) := by
  induction fuel with
  | zero => intro i t; simp [process_frames]
  | succ fuel ih =>
    intro i t
    rw [process_frames, if_pos rfl, List.range_succ_eq_map, List.map_cons, ih (i + 1) (t + 1),
      List.map_map]
    congr 1
    apply List.map_congr_left
    intro j hj
    have hadd : i + 1 + j = i + (j + 1) := by omega
    show Push.mk ((i + 1 + j) % n) ((i + 1 + j + 1) % fps == 0)
      = Push.mk ((i + (j + 1)) % n) ((i + (j + 1) + 1) % fps == 0)
    rw [hadd]

/-- Claim C8: on a sequence of successfully decoded frames the `k`-th pushed
pair has a non-empty preview slot exactly when `k + 1` is a multiple of `fps`
(the producer increments `i` before the `i % fps == 0` test), and any window of
`fps` consecutive pushes contains exactly one pair with a non-empty preview —
once per second of playback at the source frame rate. -/
theorem c8_preview_cadence (fps n fuel : Nat) (hfps : 0 < fps) :
    (∀ k, k < fuel →
      (process_frames fps n (fun _ => true) fuel 0 0)[k]?
        = some ⟨k % n, (k + 1) % fps == 0⟩)
    ∧ ∀ m : Nat, ∃! j : Nat, j < fps ∧ (m + j + 1) % fps = 0 := by
  constructor
  · intro k hk
    rw [process_frames_ok, List.getElem?_map, List.getElem?_range hk]
    simp
  · intro m
    have hs : m % fps < fps := Nat.mod_lt _ hfps
    have hmod : fps * (m / fps) + m % fps = m := Nat.div_add_mod m fps
    refine ⟨fps - 1 - m % fps, ⟨by omega, ?_⟩, ?_⟩
    · have h1 : m + (fps - 1 - m % fps) + 1 = fps * (m / fps) + fps := by omega
      have h2 : fps * (m / fps) + fps = fps * (m / fps + 1) := by ring
      rw [h1, h2, Nat.mul_mod_right]
    · intro j hj
      obtain ⟨hjlt, hjmod⟩ := hj
      have hrewrite : m + j + 1 = fps * (m / fps) + (m % fps + j + 1) := by omega
      rw [hrewrite, Nat.mul_add_mod] at hjmod
      obtain ⟨k, hk⟩ := Nat.dvd_of_mod_eq_zero hjmod
      rcases k with _ | _ | k
      · omega
      · omega
      · exfalso
        have h2 : fps * 2 ≤ fps * (k + 1 + 1) := Nat.mul_le_mul_left fps (by omega)
        omega

/-- Witness for `c8_preview_cadence`: a 3-frame video at 3 fps, six pushes. -/
theorem c8_preview_cadence_witness :
    (∀ k, k < 6 →
      (process_frames 3 3 (fun _ => true) 6 0 0)[k]?
        = some ⟨k % 3, (k + 1) % 3 == 0⟩)
    ∧ ∀ m : Nat, ∃! j : Nat, j < 3 ∧ (m + j + 1) % 3 = 0 :=
  c8_preview_cadence 3 3 6 (by decide)

/-- Claim C9: a failed frame retrieval (the `RuntimeError` branch) makes the
next iteration restart from read index 0, and the error neither escapes the
producer nor ends playback: over any decode history the loop performs all its
iterations and pushes exactly one pair per successful decode. -/
theorem c9_decode_recovery (fps n : Nat) (decodeOk : Nat → Bool) (fuel i t : Nat)
    (herr : decodeOk t = false) :
    process_frames fps n decodeOk (fuel + 1) i t
      = process_frames fps n decodeOk fuel 0 (t + 1)
    ∧ ∀ fuel2 i2 t2, (process_frames fps n decodeOk fuel2 i2 t2).length
        = ((List.range fuel2).filter (fun j => decodeOk (t2 + j))).length := by
  constructor
  · rw [process_frames, if_neg (by rw [herr]; exact Bool.false_ne_true)]
  · intro fuel2
    induction fuel2 with
    | zero => intro i2 t2; simp [process_frames]
    | succ fuel2 ih =>
      intro i2 t2
      have hpred : ((List.range fuel2).filter ((fun j => decodeOk (t2 + j)) ∘ Nat.succ))
          = (List.range fuel2).filter (fun j => decodeOk (t2 + 1 + j)) := by
        apply List.filter_congr
        intro j hj
        show decodeOk (t2 + (j + 1)) = decodeOk (t2 + 1 + j)
        have hadd : t2 + (j + 1) = t2 + 1 + j := by omega
        rw [hadd]
      have hshift : ((List.range (fuel2 + 1)).filter (fun j => decodeOk (t2 + j))).length
          = (if decodeOk t2 then 1 else 0)
            + ((List.range fuel2).filter (fun j => decodeOk (t2 + 1 + j))).length := by
        rw [List.range_succ_eq_map, List.filter_cons, List.filter_map, hpred]
        simp only [Nat.add_zero]
        by_cases hcase : decodeOk t2 = true
        · rw [if_pos hcase, if_pos hcase]
          simp [Nat.add_comm]
        · rw [if_neg hcase, if_neg hcase]
          simp
      rw [hshift, process_frames]
      by_cases hcase : decodeOk t2 = true
      · rw [if_pos hcase, if_pos hcase, List.length_cons]
        rw [ih (i2 + 1) (t2 + 1)]
        omega
      · rw [if_neg hcase, if_neg hcase]
        rw [ih 0 (t2 + 1)]
        omega

/-- Witness for `c9_decode_recovery`: decoder failing on attempt 0 only. -/
theorem c9_decode_recovery_witness :
    process_frames 3 5 (fun t => t != 0) (4 + 1) 2 0
      = process_frames 3 5 (fun t => t != 0) 4 0 (0 + 1)
    ∧ ∀ fuel2 i2 t2, (process_frames 3 5 (fun t => t != 0) fuel2 i2 t2).length
        = ((List.range fuel2).filter (fun j => (fun t => t != 0) (t2 + j))).length :=
  c9_decode_recovery 3 5 (fun t => t != 0) 4 2 0 (by decide)

/- ### File paths, extensions and the directory listing (src/Polo.py:90-91, 216-232, 262-267)

Python path strings are modelled as code-point lists.  `get_fmt` follows
`pathlib`: `Path(path).suffix` is the part of the final path component from
its last dot on, provided that dot is neither the first nor the last
character of the component, and `get_fmt` drops the leading dot
(src/Polo.py:262-267).  `choose_media` (lines 226-230) keeps the sibling
files whose `get_fmt` is literally one of the lower-case format strings or
one of their upper-cased copies, then sorts with `key=str.lower`; a stable
sort keyed on the lower-cased name is modelled by insertion sort on that
key, which agrees with CPython's stable sort extensionally. -/

/-- A Python `str` (file path), as its list of code points. -/
abbrev PyStr : Type := List Char

/-- `str.lower()` / `str.upper()`, per code point (ASCII case mapping). -/
def pyLower (s : PyStr) : PyStr := s.map Char.toLower

/-- `str.upper()`, per code point. -/
def pyUpper (s : PyStr) : PyStr := s.map Char.toUpper

/-- `pathlib.Path(p).name`: the part of the path after the last slash. -/
def pathName (p : PyStr) : PyStr :=
  p.foldl (fun acc c => if c = '/' then [] else acc ++ [c]) []

/-- `name.rfind(".")` as an optional index: the position of the last dot. -/
def rfindDot (nm : PyStr) : Option Nat :=
  ((List.range nm.length).filter (fun i => nm.getD i ' ' = '.')).getLast?

/-- src/Polo.py:262-267 — `Polo.get_fmt`: `Path(path).suffix[1:]`, the file
extension without its dot (empty if the final component has no usable dot). -/
def get_fmt (p : PyStr) : PyStr :=
  let nm := pathName p
  match rfindDot nm with
  | none => []
  | some i => if 0 < i ∧ i < nm.length - 1 then nm.drop (i + 1) else []

/-- src/Polo.py:90 — `Polo.image_fmts`. -/
def image_fmts : List PyStr :=
  ["bmp", "gif", "jpeg", "jpg", "png", "ppm"].map String.toList

/-- src/Polo.py:91 — `Polo.video_fmts`. -/
def video_fmts : List PyStr :=
  ["avi", "mkv", "mov", "mp4", "mpg", "mpeg"].map String.toList

/-- src/Polo.py:228-229 — the membership test of the `choose_media` list
comprehension: the lower-case format lists plus their upper-cased copies. -/
def accepted_fmts : List PyStr :=
  image_fmts ++ video_fmts ++ (image_fmts ++ video_fmts).map pyUpper

/-- The case-insensitive name order used by `self.files.sort(key=str.lower)`. -/
def lowerLE (a b : PyStr) : Prop := pyLower a ≤ pyLower b

instance : DecidableRel lowerLE := fun a b => by
  unfold lowerLE
  infer_instance

instance : IsTotal PyStr lowerLE := ⟨fun a b => le_total (pyLower a) (pyLower b)⟩

instance : IsTrans PyStr lowerLE := ⟨fun _ _ _ h1 h2 => le_trans h1 h2⟩

/-- src/Polo.py:226-230 — the files kept and ordered by `choose_media`:
filter the directory's entries by exact membership of `get_fmt` in
`accepted_fmts`, then sort stably by the lower-cased name. -/
def choose_media_files (siblings : List PyStr) : List PyStr :=
  List.insertionSort lowerLE (siblings.filter (fun f => decide (get_fmt f ∈ accepted_fmts)))

/-- Claim C7, counterexample: `a.Jpg` has extension `Jpg`, whose lower-case
form `jpg` is a recognized image format, yet `choose_media` excludes it — the
membership test only accepts all-lower-case or all-upper-case extensions, not
arbitrary case mixtures. -/
theorem c7_counterexample :
    pyLower (get_fmt ("a.Jpg".toList)) ∈ image_fmts
    ∧ choose_media_files ["a.Jpg".toList] = [] := by
  constructor
  · decide
  · decide

/-- Claim C7 as amended: the enumerator returns exactly the sibling files
whose extension is literally one of the recognized lower-case format strings
or one of their upper-cased copies (mixed-case extensions are excluded),
ordered case-insensitively by name. -/
theorem c7_amended (siblings : List PyStr) :
    (∀ f, f ∈ choose_media_files siblings ↔
      f ∈ siblings ∧ get_fmt f ∈ accepted_fmts)
    ∧ List.Sorted lowerLE (choose_media_files siblings) := by
  constructor
  · intro f
    rw [choose_media_files, List.mem_insertionSort, List.mem_filter, decide_eq_true_eq]
  · exact List.sorted_insertionSort lowerLE _

/- ### The media session state (src/Polo.py:44-91, 225-276)

The fields of `Polo` touched by `choose_media`, `set_media` and
`advance_media` form the session state: the directory listing `files`, the
cursor `current_file_index` (a Python `int`, initialized to `-1`), the
loaded media `media` (`None`, a PIL image, or an imageio video reader,
remembered here by the path it was opened from) and the converted display
object `qmedia`.  Opening an image or a video can fail (unsupported or
corrupt file); the external openers are an oracle `MediaEnv`.  A Python
statement sequence is embedded statement by statement, so a raised exception
leaves exactly the mutations made before it visible in the returned state,
paired with the exception. -/

/-- `self.media`: `None`, a PIL image, or a video reader (src/Polo.py:50). -/
inductive MediaVal where
  | pyNone : MediaVal
  | image (path : PyStr) : MediaVal
  | video (path : PyStr) : MediaVal
deriving DecidableEq, Repr

/-- The Python exceptions the session code can raise. -/
inductive PyErr where
  | zeroDivisionError
  | valueError
  | indexError
  | openError
deriving DecidableEq, Repr

/-- The session state of the `Polo` widget. -/
structure PoloState where
  files : List PyStr
  current_file_index : Int
  media : MediaVal
  qmedia : Option PyStr
deriving DecidableEq, Repr

/-- The state after `Polo.__init__` (src/Polo.py:45-57): empty file list,
cursor `-1`, no media, no converted media. -/
def initial_state : PoloState :=
  { files := [], current_file_index := -1, media := .pyNone, qmedia := none }

/-- The external open operations: does `Image.open(path)` succeed, does
`imageio.get_reader(path, "ffmpeg")` succeed. -/
structure MediaEnv where
  openImageOk : PyStr → Bool
  openVideoOk : PyStr → Bool

/-- An environment where every open succeeds. -/
def anyEnv : MediaEnv := ⟨fun _ => true, fun _ => true⟩

/-- An environment where every open fails (unsupported or corrupt files). -/
def failEnv : MediaEnv := ⟨fun _ => false, fun _ => false⟩

/-- Python list indexing `l[i]`, with negative indices counting from the
end; `none` is an `IndexError`. -/
def pyListGet (l : List PyStr) (i : Int) : Option PyStr :=
  if 0 ≤ i then l.get? i.toNat
  else if 0 ≤ i + l.length then l.get? (i + l.length).toNat else none

/-- Python `l.index(x)`: the first position of `x`, `none` is a `ValueError`. -/
def pyIndex (l : List PyStr) (x : PyStr) : Option Nat :=
  match l with
  | [] => none
  | a :: rest => if a = x then some 0 else (pyIndex rest x).map (· + 1)

/-- `pyIndex` returns a position that holds the searched value. -/
theorem pyIndex_get (x : PyStr) : ∀ (l : List PyStr) (i : Nat),
    pyIndex l x = some i → pyListGet l (i : Int) = some x := by
  intro l
  induction l with
  | nil => intro i h; simp [pyIndex] at h
  | cons a rest ih =>
    intro i h
    rw [pyIndex] at h
    by_cases ha : a = x
    · rw [if_pos ha] at h
      obtain rfl : (0 : Nat) = i := by simpa using h
      simp [pyListGet, ha]
    · rw [if_neg ha] at h
      obtain ⟨j, hj, rfl⟩ := Option.map_eq_some'.mp h
      have hrec := ih j hj
      rw [pyListGet, if_pos (by positivity)] at hrec ⊢
      simpa using hrec

/-- The synchronous effect of `Polo.stop` on the session state
(src/Polo.py:347-354): the shared media reference is cleared; the handle
close and thread join do not change session fields. -/
def stop_sync (s : PoloState) : PoloState :=
  match s.media with
  | .video _ => { s with media := .pyNone }
  | _ => s

/-- src/Polo.py:235-253 — `Polo.set_media`: read `files[current_file_index]`,
classify by lower-cased extension; an image is opened (`self.media` is only
assigned if the open succeeds) and hologrified into `qmedia`; a video first
stops any playing video, then is opened, with `qmedia` cleared.  An
unrecognized extension leaves the media unchanged. -/
def set_media (env : MediaEnv) (s : PoloState) : PoloState × Option PyErr :=
  match pyListGet s.files s.current_file_index with
  | none => (s, some .indexError)
  | some media_path =>
    if pyLower (get_fmt media_path) ∈ image_fmts then
      if env.openImageOk media_path then
        ({ s with media := .image media_path, qmedia := some media_path }, none)
      else (s, some .openError)
    else if pyLower (get_fmt media_path) ∈ video_fmts then
      let s1 := stop_sync s
      if env.openVideoOk media_path then
        ({ s1 with media := .video media_path, qmedia := none }, none)
      else (s1, some .openError)
    else (s, none)

/-- src/Polo.py:216-233 — `Polo.choose_media`: an empty dialog result is a
no-op; otherwise `self.files` is replaced by the filtered and sorted sibling
list, `self.current_file_index` by the chosen path's position in it (a
missing path raises `ValueError` after `files` was already replaced), and
`set_media` runs. -/
def choose_media (env : MediaEnv) (media_path : PyStr) (siblings : List PyStr)
    (s : PoloState) : PoloState × Option PyErr :=
  if media_path = [] then (s, none)
  else
    let s1 := { s with files := choose_media_files siblings }
    match pyIndex s1.files media_path with
    | none => (s1, some .valueError)
    | some idx => set_media env { s1 with current_file_index := (idx : Int) }

/-- src/Polo.py:269-276 — `Polo.advance_media`: `current_file_index += step`
then `current_file_index %= len(files)` (a `ZeroDivisionError` on an empty
list, after the cursor was already moved), then `set_media`. -/
def advance_media (env : MediaEnv) (step : Int) (s : PoloState) :
    PoloState × Option PyErr :=
  let s1 := { s with current_file_index := s.current_file_index + step }
  if s1.files.length = 0 then (s1, some .zeroDivisionError)
  else
    set_media env
      { s1 with current_file_index := s1.current_file_index % (s1.files.length : Int) }

/-- `set_media` never touches `files` or `current_file_index`, and the only
exceptions it can raise are `IndexError` and the open failure. -/
theorem set_media_spec (env : MediaEnv) (s : PoloState) :
    ((set_media env s).1).files = s.files
    ∧ ((set_media env s).1).current_file_index = s.current_file_index
    ∧ (set_media env s).2 ≠ some PyErr.zeroDivisionError
    ∧ (set_media env s).2 ≠ some PyErr.valueError := by
  unfold set_media
  cases h : pyListGet s.files s.current_file_index with
  | none => simp
  | some p =>
    dsimp only
    by_cases h1 : pyLower (get_fmt p) ∈ image_fmts
    · rw [if_pos h1]
      by_cases h2 : env.openImageOk p = true
      · rw [if_pos h2]
        simp
      · rw [if_neg h2]
        simp
    · rw [if_neg h1]
      by_cases h3 : pyLower (get_fmt p) ∈ video_fmts
      · rw [if_pos h3]
        have hfiles : (stop_sync s).files = s.files := by
          unfold stop_sync
          cases s.media <;> rfl
        have hidx : (stop_sync s).current_file_index = s.current_file_index := by
          unfold stop_sync
          cases s.media <;> rfl
        by_cases h4 : env.openVideoOk p = true
        · rw [if_pos h4]
          exact ⟨hfiles, hidx, by simp, by simp⟩
        · rw [if_neg h4]
          exact ⟨hfiles, hidx, by simp, by simp⟩
      · rw [if_neg h3]
        simp

/-- Claim C3, counterexample: on the initial (empty) file list,
`advance_media(1)` is not a silent no-op — `current_file_index += step` runs
first, then `%= len(self.files)` raises `ZeroDivisionError`, so the call
both mutates the cursor and raises. -/
theorem c3_counterexample :
    (advance_media anyEnv 1 initial_state).2 = some PyErr.zeroDivisionError
    ∧ (advance_media anyEnv 1 initial_state).1 ≠ initial_state := by
  constructor
  · decide
  · decide

/-- Claim C3 as amended: on a non-empty file list `advance_media(step)` sets
the cursor to `(index + step) mod length` (Python flooring modulus, wrapping
forward for positive and backward for negative steps) and leaves the file
list unchanged; on an empty file list it is not a silent no-op: it moves the
cursor by `step` and raises `ZeroDivisionError`. -/
theorem c3_amended (env : MediaEnv) (s : PoloState) (step : Int) :
    (s.files.length ≠ 0 →
      ((advance_media env step s).1).current_file_index
          = (s.current_file_index + step) % (s.files.length : Int)
      ∧ ((advance_media env step s).1).files = s.files
      ∧ (advance_media env step s).2 ≠ some PyErr.zeroDivisionError)
    ∧ (s.files.length = 0 →
      advance_media env step s
        = ({ s with current_file_index := s.current_file_index + step },
            some PyErr.zeroDivisionError)) := by
  constructor
  · intro hne
    unfold advance_media
    dsimp only
    rw [if_neg hne]
    have hspec := set_media_spec env
      { s with current_file_index := (s.current_file_index + step) % (s.files.length : Int) }
    exact ⟨hspec.2.1, hspec.1, hspec.2.2.1⟩
  · intro hz
    unfold advance_media
    dsimp only
    rw [if_pos hz]

/-- Witness for `c3_amended`: a five-file list at cursor 0, step −1 wraps to
`(0 - 1) mod 5 = 4`. -/
def five_state : PoloState :=
  { files := ["a.png", "b.png", "c.png", "d.png", "e.png"].map String.toList,
    current_file_index := 0, media := .pyNone, qmedia := none }

theorem c3_amended_witness :
    ((advance_media anyEnv (-1) five_state).1).current_file_index
        = (five_state.current_file_index + -1) % (five_state.files.length : Int)
    ∧ ((advance_media anyEnv (-1) five_state).1).files = five_state.files
    ∧ (advance_media anyEnv (-1) five_state).2 ≠ some PyErr.zeroDivisionError :=
  (c3_amended anyEnv five_state (-1)).1 (by decide)

/-- Claim C4, counterexample: selecting `a.png` when `Image.open` fails
surfaces the failure, but the session is not left exactly as before the
call — `choose_media` had already replaced `files` and
`current_file_index` before `set_media` attempted the open. -/
theorem c4_counterexample :
    (choose_media failEnv ("a.png".toList) [("a.png".toList)] initial_state).2
        = some PyErr.openError
    ∧ (choose_media failEnv ("a.png".toList) [("a.png".toList)] initial_state).1
        ≠ initial_state := by
  constructor
  · decide
  · decide

/-- Claim C4 as amended: when opening a selected image fails, the failure is
surfaced to the caller of `choose_media` as a raised exception, and the
loaded media and converted preview are unchanged — but the transition is
partial, not absent: `files` already holds the new directory listing (and,
when the path was found in it, `current_file_index` its position). -/
theorem c4_amended (env : MediaEnv) (s : PoloState) (p : PyStr)
    (siblings : List PyStr) (hp : p ≠ [])
    (himg : pyLower (get_fmt p) ∈ image_fmts)
    (hopen : env.openImageOk p = false) :
    (choose_media env p siblings s).2 ≠ none
    ∧ ((choose_media env p siblings s).1).files = choose_media_files siblings
    ∧ ((choose_media env p siblings s).1).media = s.media
    ∧ ((choose_media env p siblings s).1).qmedia = s.qmedia := by
  unfold choose_media
  rw [if_neg hp]
  dsimp only
  cases hfind : pyIndex (choose_media_files siblings) p with
  | none =>
    exact ⟨by simp, rfl, rfl, rfl⟩
  | some idx =>
    have hget := pyIndex_get p (choose_media_files siblings) idx hfind
    unfold set_media
    dsimp only
    rw [hget]
    dsimp only
    rw [if_pos himg, if_neg (by rw [hopen]; exact Bool.false_ne_true)]
    exact ⟨by simp, rfl, rfl, rfl⟩

/-- Witness for `c4_amended`: `a.png` in a one-file directory with a failing
image opener. -/
theorem c4_amended_witness :
    (choose_media failEnv ("a.png".toList) [("a.png".toList)] initial_state).2 ≠ none
    ∧ ((choose_media failEnv ("a.png".toList) [("a.png".toList)] initial_state).1).files
        = choose_media_files [("a.png".toList)]
    ∧ ((choose_media failEnv ("a.png".toList) [("a.png".toList)] initial_state).1).media
        = initial_state.media
    ∧ ((choose_media failEnv ("a.png".toList) [("a.png".toList)] initial_state).1).qmedia
        = initial_state.qmedia :=
  c4_amended failEnv initial_state ("a.png".toList) [("a.png".toList)]
    (by decide) (by decide) rfl

/- ### The stop protocol (src/Polo.py:293-354)

While a video plays, three threads run: the main thread (which executes
`stop()`: `video = self.media; self.media = None; video.close();
self.player_thread.join()`), the consumer (`play`, which loops while
`type(self.media) is Video` and finally joins the producer), and the
producer (`process_frames`, which loops on the same type check and inside
the body reads `self.media` and calls `get_data` on it).  Each Python
statement is one atomic step of a labelled transition system; a scheduler
trace is a list of thread identifiers, and a step is disabled (`none`) when
the thread is blocked in a join or already finished.  The producer body is
split at its suspension point: reading `self.media` (an `AttributeError`
kills the thread if the reference was already cleared), then invoking
`get_data` on the captured reference (flagged as a use-after-close when the
handle was already closed; the raised `RuntimeError` is caught by the
`except` of src/Polo.py:308). -/

/-- Program counter of the main thread inside `Polo.stop` (src/Polo.py:347-354). -/
inductive MPc where
  | m0    -- about to run `video = self.media`
  | m1    -- about to run `self.media = None`
  | m2    -- about to run `video.close()`
  | m3    -- about to run `self.player_thread.join()`
  | mDone -- `stop()` returned
deriving DecidableEq, Repr, Fintype

/-- Program counter of the producer thread (src/Polo.py:300-325). -/
inductive PPc where
  | pHead -- loop guard `while type(self.media) is Video`
  | pRead -- about to read `self.media` in the loop body
  | pCall -- about to call `get_data` on the captured video reference
  | pDone -- loop exited normally
  | pDead -- thread died on an uncaught `AttributeError` (`None.get_data`)
deriving DecidableEq, Repr, Fintype

/-- Program counter of the consumer (`Polo.play`, src/Polo.py:332-345). -/
inductive CPc where
  | cHead -- loop guard `while type(self.media) is Video`
  | cBody -- queue get, publish, sleep
  | cJoin -- `frame_producer.join()` after the loop
  | cDone -- `play` returned
deriving DecidableEq, Repr, Fintype

/-- State of the three threads and the two shared flags: whether
`self.media` still holds the playing video, and whether its handle has been
closed. -/
structure SysState where
  media : Bool
  closed : Bool
  pcM : MPc
  pcP : PPc
  pcC : CPc
  uac : Bool -- the producer invoked the video after the handle was closed
deriving DecidableEq, Repr, Fintype

/-- Thread identifiers. -/
inductive Tid where
  | main | prod | cons
deriving DecidableEq, Repr, Fintype

/-- One atomic step of thread `t`; `none` when `t` is blocked or finished. -/
def step (t : Tid) (s : SysState) : Option SysState :=
  match t with
  | .main =>
    match s.pcM with
    | .m0 => some { s with pcM := .m1 }
    | .m1 => some { s with media := false, pcM := .m2 }
    | .m2 => some { s with closed := true, pcM := .m3 }
    | .m3 => if s.pcC = .cDone then some { s with pcM := .mDone } else none
    | .mDone => none
  | .prod =>
    match s.pcP with
    | .pHead => some (if s.media then { s with pcP := .pRead } else { s with pcP := .pDone })
    | .pRead => some (if s.media then { s with pcP := .pCall } else { s with pcP := .pDead })
    | .pCall => some (if s.closed then { s with uac := true, pcP := .pHead }
                      else { s with pcP := .pHead })
    | .pDone => none
    | .pDead => none
  | .cons =>
    match s.pcC with
    | .cHead => some (if s.media then { s with pcC := .cBody } else { s with pcC := .cJoin })
    | .cBody => some { s with pcC := .cHead }
    | .cJoin => if s.pcP = .pDone ∨ s.pcP = .pDead then some { s with pcC := .cDone } else none
    | .cDone => none

/-- Run a scheduler trace; `none` if some scheduled step was disabled. -/
def runTrace : List Tid → SysState → Option SysState
  | [], s => some s
  | t :: ts, s => (step t s).bind (runTrace ts)

/-- The state while a video is playing, just as `stop()` is entered: both
loops at their guards, media present, handle open. -/
def playing_state : SysState :=
  { media := true, closed := false, pcM := .m0, pcP := .pHead, pcC := .cHead, uac := false }

/-- Claim C1, counterexample: schedule the producer past its guard and read,
then let `stop()` run through `self.media = None` and `video.close()`.  The
handle is then closed while the producer is still mid-iteration (`pCall`,
not exited), and one more producer step invokes `get_data` on the closed
handle.  Hence it is false that every `stop()` closes the video only after
both pipeline loops have terminated. -/
theorem c1_counterexample :
    runTrace [Tid.prod, Tid.prod, Tid.main, Tid.main, Tid.main] playing_state
      = some { media := false, closed := true, pcM := .m3, pcP := .pCall,
               pcC := .cHead, uac := false }
    ∧ runTrace [Tid.prod, Tid.prod, Tid.main, Tid.main, Tid.main, Tid.prod] playing_state
      = some { media := false, closed := true, pcM := .m3, pcP := .pHead,
               pcC := .cHead, uac := true }
    ∧ ¬ (∀ trace s, runTrace trace playing_state = some s →
          s.closed = true → (s.pcP = .pDone ∨ s.pcP = .pDead) ∧ s.pcC = .cDone) := by
  refine ⟨by decide, by decide, fun hclaim => ?_⟩
  have hbad := hclaim [Tid.prod, Tid.prod, Tid.main, Tid.main, Tid.main]
    { media := false, closed := true, pcM := .m3, pcP := .pCall, pcC := .cHead, uac := false }
    (by decide) rfl
  exact absurd hbad.2 (by decide)

/-- The inductive invariant of the stop protocol: the type-state change
(`media = None`) precedes the close in `stop()`'s program order, the close
only happens from `m3` on, `stop()` returns only after the consumer
finished, and the consumer only finishes after joining a terminated
producer. -/
def SysInv (s : SysState) : Prop :=
  ((s.pcM = .m2 ∨ s.pcM = .m3 ∨ s.pcM = .mDone) → s.media = false)
  ∧ (s.closed = true → (s.pcM = .m3 ∨ s.pcM = .mDone))
  ∧ (s.pcM = .mDone → s.pcC = .cDone)
  ∧ (s.pcC = .cDone → (s.pcP = .pDone ∨ s.pcP = .pDead))

instance : DecidablePred SysInv := fun s => by
  unfold SysInv
  infer_instance

/-- `step` preserves the invariant (checked over the finite state space). -/
def stepKeepsInv (t : Tid) (s : SysState) : Bool :=
  match step t s with
  | none => true
  | some s1 => decide (SysInv s1)

theorem step_preserves_inv : ∀ (t : Tid) (s : SysState),
    decide (SysInv s) = true → stepKeepsInv t s = true := by
  intro t s
  rcases s with ⟨m, c, pm, pp, pc, u⟩
  cases t <;> cases m <;> cases c <;> cases pm <;> cases pp <;> cases pc <;> cases u <;> decide

/-- Claim C1 as amended: in every schedule, `stop()` clears the shared media
reference (the value-based type-state change both loops test) before the
handle is closed, and `stop()` only returns after both the consumer and the
producer have fully exited — but the close itself is issued before the
joins, so it is not ordered after loop termination (see the counterexample). -/
theorem c1_amended (trace : List Tid) (s : SysState)
    (hrun : runTrace trace playing_state = some s) :
    (s.closed = true → s.media = false)
    ∧ (s.pcM = .mDone → (s.pcP = .pDone ∨ s.pcP = .pDead) ∧ s.pcC = .cDone) := by
  have key : ∀ (ts : List Tid) (s0 s1 : SysState),
      SysInv s0 → runTrace ts s0 = some s1 → SysInv s1 := by
    intro ts
    induction ts with
    | nil =>
      intro s0 s1 h0 hr
      rw [runTrace] at hr
      cases hr
      exact h0
    | cons t ts ih =>
      intro s0 s1 h0 hr
      rw [runTrace] at hr
      cases hstep : step t s0 with
      | none =>
        rw [hstep] at hr
        cases hr
      | some smid =>
        rw [hstep] at hr
        have hmid : SysInv smid := by
          have hk := step_preserves_inv t s0 (decide_eq_true h0)
          rw [stepKeepsInv, hstep] at hk
          exact of_decide_eq_true hk
        exact ih smid s1 hmid hr
  have hinv : SysInv s := key trace playing_state s (by decide) hrun
  obtain ⟨h1, h2, h3, h4⟩ := hinv
  constructor
  · intro hc
    rcases h2 hc with hm | hm
    · exact h1 (Or.inr (Or.inl hm))
    · exact h1 (Or.inr (Or.inr hm))
  · intro hm
    exact ⟨h4 (h3 hm), h3 hm⟩

/-- Witness for `c1_amended`: a complete shutdown schedule ending with
`stop()` returned, both loops exited, the handle closed. -/
theorem c1_amended_witness :
    (({ media := false, closed := true, pcM := .mDone, pcP := .pDone,
        pcC := .cDone, uac := false } : SysState).closed = true →
      ({ media := false, closed := true, pcM := .mDone, pcP := .pDone,
         pcC := .cDone, uac := false } : SysState).media = false)
    ∧ (({ media := false, closed := true, pcM := .mDone, pcP := .pDone,
          pcC := .cDone, uac := false } : SysState).pcM = .mDone →
        (({ media := false, closed := true, pcM := .mDone, pcP := .pDone,
            pcC := .cDone, uac := false } : SysState).pcP = .pDone
          ∨ ({ media := false, closed := true, pcM := .mDone, pcP := .pDone,
               pcC := .cDone, uac := false } : SysState).pcP = .pDead)
        ∧ ({ media := false, closed := true, pcM := .mDone, pcP := .pDone,
             pcC := .cDone, uac := false } : SysState).pcC = .cDone) :=
  c1_amended [Tid.main, Tid.main, Tid.main, Tid.prod, Tid.cons, Tid.cons, Tid.main]
    { media := false, closed := true, pcM := .mDone, pcP := .pDone,
      pcC := .cDone, uac := false }
    (by decide)

/- ### Frame objects and in-place mutation (src/Polo.py:312-317, 387-388)

PIL's interface, as the source relies on it: `Image.copy` and the
`ImageOps` transforms return new image objects, while `Image.thumbnail`
documents that it modifies the image to contain a thumbnail version of
itself — it resizes its receiver in place and returns nothing.  The source
depends on exactly this: `hologrify` copies the source before thumbnailing
it (line 387-388), and the producer's preview branch calls
`frame.thumbnail(...)` and then uses the same `frame` reference as the
thumbnail (lines 315-317).  Object identity is modelled by a store of frame
values addressed by allocation index; an operation that returns a new frame
appends a cell, an in-place operation overwrites its receiver's cell.  The
thumbnail itself shrinks to fit the bounding box, preserving aspect ratio
and never upscaling, with nearest-neighbour sampling. -/

/-- A concrete raster frame: dimensions plus RGBA pixel rows. -/
structure LImg where
  w : Nat
  h : Nat
  rows : List (List (Nat × Nat × Nat × Nat))
deriving DecidableEq, Repr

instance : Inhabited LImg := ⟨⟨0, 0, []⟩⟩

/-- The object store: frame values addressed by allocation index. -/
abbrev Store : Type := List LImg

/-- The aspect-preserving fit of a `w × h` frame into a `bw × bh` box:
unchanged when it already fits, otherwise scaled down. -/
def thumb_dims (w h bw bh : Nat) : Nat × Nat :=
  if w ≤ bw ∧ h ≤ bh then (w, h)
  else if bw * h ≤ bh * w then (bw, max 1 (h * bw / w))
  else (max 1 (w * bh / h), bh)

/-- Nearest-neighbour resample of a frame to the given dimensions. -/
def thumb_resize (img : LImg) (tw th : Nat) : LImg :=
  { w := tw, h := th,
    rows := (List.range th).map (fun r =>
      (List.range tw).map (fun c =>
        (img.rows.getD (r * img.h / th) []).getD (c * img.w / tw) (0, 0, 0, 0))) }

/-- The thumbnail value: the frame shrunk to fit the box (identity when it
already fits). -/
def pilThumbnail (img : LImg) (bw bh : Nat) : LImg :=
  let d := thumb_dims img.w img.h bw bh
  if d.1 = img.w ∧ d.2 = img.h then img else thumb_resize img d.1 d.2

/-- PIL `img.copy()`: allocate a new cell holding the same value; no
existing cell is touched. -/
def pilCopy (s : Store) (r : Nat) : Store × Nat := (s ++ [s.getD r default], s.length)

/-- PIL `img.thumbnail(box)`: **in place** — the receiver's own cell is
overwritten with the thumbnail value. -/
def pilThumbnailAt (s : Store) (r : Nat) (bw bh : Nat) : Store :=
  s.set r (pilThumbnail (s.getD r default) bw bh)

/-- src/Polo.py:387-388 — `top = media.copy(); top.thumbnail((media_length_px,
media_length_px))`: the compositor's scaling step, which thumbnails a fresh
copy of the source frame. -/
def hologrify_top_step (s : Store) (rMedia : Nat) (len : Nat) : Store × Nat :=
  let c := pilCopy s rMedia
  (pilThumbnailAt c.1 c.2 len len, c.2)

/-- src/Polo.py:313-317 — the producer's preview branch:
`frame.thumbnail((w, h))` thumbnails the decoded frame itself, and the
subsequent `ImageQt(frame)` uses the same, now mutated, object. -/
def preview_step (s : Store) (rFrame : Nat) (tw th : Nat) : Store :=
  pilThumbnailAt s rFrame tw th

/-- A 2×2 test frame. -/
def img2 : LImg :=
  ⟨2, 2, [[(1, 1, 1, 255), (2, 2, 2, 255)], [(3, 3, 3, 255), (4, 4, 4, 255)]]⟩

/-- Claim C10, counterexample: the producer's preview step thumbnails the
decoded frame in place — after `frame.thumbnail((1, 1))` on a 2×2 frame, the
frame object's own pixel content has changed (it is now the 1×1 thumbnail),
so not every transform produces a new Frame leaving its input unchanged. -/
theorem c10_counterexample :
    (preview_step [img2] 0 1 1).getD 0 default ≠ img2
    ∧ ((preview_step [img2] 0 1 1).getD 0 default).w = 1
    ∧ ((preview_step [img2] 0 1 1).getD 0 default).h = 1 := by
  refine ⟨by decide, by decide, by decide⟩

/-- Appending cells leaves existing cells readable unchanged. -/
theorem getD_append_left : ∀ (l l2 : Store) (i : Nat), i < l.length →
    (l ++ l2).getD i default = l.getD i default := by
  intro l
  induction l with
  | nil => intro l2 i h; simp at h
  | cons a rest ih =>
    intro l2 i h
    cases i with
    | zero => rfl
    | succ j =>
      have hj : j < rest.length := by simpa using h
      simpa using ih l2 j hj

/-- Overwriting the freshly appended cell only changes that cell. -/
theorem set_append_last : ∀ (l : Store) (x y : LImg),
    (l ++ [x]).set l.length y = l ++ [y] := by
  intro l
  induction l with
  | nil => intro x y; rfl
  | cons a rest ih =>
    intro x y
    simp [ih x y]

/-- Claim C10 as amended: `copy` (and the `ImageOps` transforms, which
return fresh objects) leave every existing frame cell unchanged, and
`hologrify` protects the source frame by thumbnailing a fresh copy — but
`Image.thumbnail` itself is an in-place mutation, and the producer's preview
branch applies it to the decoded frame directly, changing that Frame's
content after construction (see the counterexample). -/
theorem c10_amended :
    (∀ (s : Store) (r i : Nat), i < s.length →
      ((pilCopy s r).1).getD i default = s.getD i default)
    ∧ (∀ (s : Store) (rMedia len : Nat), rMedia < s.length →
      ((hologrify_top_step s rMedia len).1).getD rMedia default
        = s.getD rMedia default)
    ∧ (∃ (s : Store) (r tw th : Nat),
        (preview_step s r tw th).getD r default ≠ s.getD r default) := by
  refine ⟨?_, ?_, ?_⟩
  · intro s r i h
    exact getD_append_left s _ i h
  · intro s rMedia len h
    show ((pilCopy s rMedia).1.set (pilCopy s rMedia).2 _).getD rMedia default
      = s.getD rMedia default
    rw [pilCopy]
    rw [set_append_last]
    exact getD_append_left s _ rMedia h
  · exact ⟨[img2], 0, 1, 1, by decide⟩

/-- Witness for `c10_amended`: a one-cell store holding the 2×2 frame. -/
theorem c10_amended_witness :
    ((pilCopy [img2] 0).1).getD 0 default = [img2].getD 0 default
    ∧ ((hologrify_top_step [img2] 0 1).1).getD 0 default = [img2].getD 0 default :=
  ⟨c10_amended.1 [img2] 0 0 (by decide), c10_amended.2.1 [img2] 0 1 (by decide)⟩
